import Mathlib

/-!
Verification of the Smart-Tile-Maker texture pipeline (`src/main.py`).

The development shallowly embeds the program's operations:
* the base64 decode applied to each returned image (`base64.b64decode(i.split(",", 1)[0])`),
* the preflight validation `issue_check`,
* the image synthesis `SDImageGenerator.generate_image`,
* the name-generation loop `GPTGenerator.generate_texture_names`,
* and the driver `generate_textures`.

External collaborators (the completion API, the Stable Diffusion HTTP
service, the filesystem) are modelled as oracles; a run produces an explicit
trace of the calls the program issues, so sequencing and short-circuiting
properties are statements about that trace.
-/

namespace SmartTileMaker

/-! ## Base64 (the payload decode of `generate_image`, line 108) -/

/-- The standard base64 alphabet used by Python's `base64.b64decode`/`b64encode`. -/
def b64alphabet : List Char :=
  ['A','B','C','D','E','F','G','H','I','J','K','L','M',
   'N','O','P','Q','R','S','T','U','V','W','X','Y','Z',
   'a','b','c','d','e','f','g','h','i','j','k','l','m',
   'n','o','p','q','r','s','t','u','v','w','x','y','z',
   '0','1','2','3','4','5','6','7','8','9','+','/']

def b64chr (n : Nat) : Char := b64alphabet.getD n 'A'

def b64idx (c : Char) : Nat := b64alphabet.indexOf c

/-- Base64 encoding of a byte list (bytes are `Nat` values below 256),
with `=` padding, as produced by `base64.b64encode`. -/
def b64encode : List Nat → List Char
  | [] => []
  | [a] => [b64chr (a / 4), b64chr (a % 4 * 16), '=', '=']
  | [a, b] => [b64chr (a / 4), b64chr (a % 4 * 16 + b / 16), b64chr (b % 16 * 4), '=']
  | a :: b :: c :: rest =>
      b64chr (a / 4) :: b64chr (a % 4 * 16 + b / 16) ::
      b64chr (b % 16 * 4 + c / 64) :: b64chr (c % 64) :: b64encode rest

/-- Base64 decoding of a character list in groups of four, honouring the
`=` padding, as `base64.b64decode` does on canonical input. -/
def b64decode : List Char → List Nat
  | c1 :: c2 :: c3 :: c4 :: rest =>
      if c3 = '=' then [b64idx c1 * 4 + b64idx c2 / 16]
      else if c4 = '=' then
        [b64idx c1 * 4 + b64idx c2 / 16, b64idx c2 % 16 * 16 + b64idx c3 / 4]
      else
        (b64idx c1 * 4 + b64idx c2 / 16) :: (b64idx c2 % 16 * 16 + b64idx c3 / 4) ::
        (b64idx c3 % 4 * 64 + b64idx c4) :: b64decode rest
  | _ => []

/-- The decode the program applies to each returned image payload:
`base64.b64decode(i.split(",", 1)[0])` — everything before the first comma
(the whole string when no comma occurs) is base64-decoded. -/
def pyDecode (s : String) : List Nat :=
  b64decode (s.data.takeWhile (fun c => c != ','))

theorem b64idx_b64chr : ∀ n < 64, b64idx (b64chr n) = n := by decide

theorem b64chr_ne_pad : ∀ n < 64, b64chr n ≠ '=' := by decide

theorem b64chr_ne_comma : ∀ n < 64, (b64chr n != ',') = true := by decide

theorem b64decode_b64encode (bs : List Nat) (h : ∀ b ∈ bs, b < 256) :
    b64decode (b64encode bs) = bs := by
  induction bs using b64encode.induct with
  | case1 => simp [b64encode, b64decode]
  | case2 a =>
    have ha : a < 256 := h a (by simp)
    have h1 := b64idx_b64chr (a / 4) (by omega)
    have h2 := b64idx_b64chr (a % 4 * 16) (by omega)
    simp only [b64encode, b64decode, ite_true, h1, h2, List.cons.injEq, and_true]
    omega
  | case3 a b =>
    have ha : a < 256 := h a (by simp)
    have hb : b < 256 := h b (by simp)
    have h1 := b64idx_b64chr (a / 4) (by omega)
    have h2 := b64idx_b64chr (a % 4 * 16 + b / 16) (by omega)
    have h3 := b64idx_b64chr (b % 16 * 4) (by omega)
    have hne := b64chr_ne_pad (b % 16 * 4) (by omega)
    simp only [b64encode, b64decode]
    rw [if_neg hne]
    simp only [ite_true, h1, h2, h3, List.cons.injEq, and_true]
    exact ⟨by omega, by omega⟩
  | case4 a b c rest ih =>
    have ha : a < 256 := h a (by simp)
    have hb : b < 256 := h b (by simp)
    have hc : c < 256 := h c (by simp)
    have h1 := b64idx_b64chr (a / 4) (by omega)
    have h2 := b64idx_b64chr (a % 4 * 16 + b / 16) (by omega)
    have h3 := b64idx_b64chr (b % 16 * 4 + c / 64) (by omega)
    have h4 := b64idx_b64chr (c % 64) (by omega)
    have hne3 := b64chr_ne_pad (b % 16 * 4 + c / 64) (by omega)
    have hne4 := b64chr_ne_pad (c % 64) (by omega)
    have hrest := ih (fun x hx => h x (by simp [hx]))
    simp only [b64encode, b64decode]
    rw [if_neg hne3, if_neg hne4]
    simp only [h1, h2, h3, h4, hrest, List.cons.injEq, and_true]
    exact ⟨by omega, by omega, by omega⟩

theorem b64encode_no_comma (bs : List Nat) (h : ∀ b ∈ bs, b < 256) :
    ∀ ch ∈ b64encode bs, (ch != ',') = true := by
  induction bs using b64encode.induct with
  | case1 => simp [b64encode]
  | case2 a =>
    have ha : a < 256 := h a (by simp)
    intro ch hch
    simp only [b64encode, List.mem_cons, List.not_mem_nil, or_false] at hch
    rcases hch with rfl | rfl | rfl | rfl
    · exact b64chr_ne_comma _ (by omega)
    · exact b64chr_ne_comma _ (by omega)
    · decide
    · decide
  | case3 a b =>
    have ha : a < 256 := h a (by simp)
    have hb : b < 256 := h b (by simp)
    intro ch hch
    simp only [b64encode, List.mem_cons, List.not_mem_nil, or_false] at hch
    rcases hch with rfl | rfl | rfl | rfl
    · exact b64chr_ne_comma _ (by omega)
    · exact b64chr_ne_comma _ (by omega)
    · exact b64chr_ne_comma _ (by omega)
    · decide
  | case4 a b c rest ih =>
    have ha : a < 256 := h a (by simp)
    have hb : b < 256 := h b (by simp)
    have hc : c < 256 := h c (by simp)
    have hrest := ih (fun x hx => h x (by simp [hx]))
    intro ch hch
    simp only [b64encode, List.mem_cons] at hch
    rcases hch with rfl | rfl | rfl | rfl | hch
    · exact b64chr_ne_comma _ (by omega)
    · exact b64chr_ne_comma _ (by omega)
    · exact b64chr_ne_comma _ (by omega)
    · exact b64chr_ne_comma _ (by omega)
    · exact hrest ch hch

theorem takeWhile_of_all {l : List Char} (h : ∀ ch ∈ l, (ch != ',') = true) :
    l.takeWhile (fun c => c != ',') = l := by
  induction l with
  | nil => rfl
  | cons x xs ih =>
    have hx := h x (List.mem_cons_self x xs)
    simp [List.takeWhile, hx, ih (fun ch hch => h ch (List.mem_cons_of_mem x hch))]

/-- Claim C10: the base64 decode the program applies to each returned image
payload is lossless — for every payload the generate call can return (a
base64 encoding of image bytes), decoding it with the program's decode and
re-encoding reproduces the payload, and the decoded bytes are the original
image bytes. -/
theorem claim10_b64_roundtrip (bs : List Nat) (h : ∀ b ∈ bs, b < 256) :
    pyDecode (String.mk (b64encode bs)) = bs ∧
    b64encode (pyDecode (String.mk (b64encode bs))) = b64encode bs := by
  have hdata : (String.mk (b64encode bs)).data = b64encode bs := rfl
  have htw : (b64encode bs).takeWhile (fun c => c != ',') = b64encode bs :=
    takeWhile_of_all (b64encode_no_comma bs h)
  have hdec : pyDecode (String.mk (b64encode bs)) = bs := by
    unfold pyDecode
    rw [hdata, htw]
    exact b64decode_b64encode bs h
  exact ⟨hdec, by rw [hdec]⟩

/-- Witness for C10 at the concrete byte list `[137, 80, 78, 71]`
(the PNG magic's first bytes). -/
theorem claim10_witness :
    pyDecode (String.mk (b64encode [137, 80, 78, 71])) = [137, 80, 78, 71] :=
  (claim10_b64_roundtrip [137, 80, 78, 71] (by decide)).1

/-! ## Preflight validation (`issue_check`, lines 217-274) -/

/-- The five conditions `issue_check` evaluates, in source order: the folder
existence test, the `requests.get(SD_URL)` reachability probe, the Latin-1
test on `key_edit.text()`, the Latin-1 test on `openai.api_key`, and the
trial `openai.Completion.create` call. -/
inductive CheckName where
  | folder
  | service
  | keyEncField
  | keyEncApi
  | trialCompletion
deriving DecidableEq

/-- The failure categories the completion collaborator reports
(the four `openai.error` classes caught by `issue_check`). -/
inductive TrialError where
  | apiError
  | apiConnectionError
  | rateLimitError
  | authenticationError
deriving DecidableEq

/-- The outcome of the preflight: success, or the diagnostic of the failed
check (one dialog per diagnostic in the program). -/
inductive Outcome where
  | ok
  | folderMissing
  | serviceUnreachable
  | invalidKeyEncoding
  | apiError
  | apiConnectionError
  | rateLimited
  | authenticationFailed
deriving DecidableEq

/-- `s.encode('latin-1')` succeeds exactly when every character's code point
is below 256. -/
def latin1Encodable (s : String) : Bool :=
  s.data.all (fun c => c.toNat < 256)

/-- The state `issue_check` reads: the folder-existence test result, the SD
reachability result, the two credential strings it encodes, and the result
of the trial completion call. -/
structure PreflightEnv where
  folderExists : Bool
  sdReachable : Bool
  keyFieldText : String
  apiKey : String
  trialResult : Except TrialError String

def trialOutcome : TrialError → Outcome
  | .apiError => .apiError
  | .apiConnectionError => .apiConnectionError
  | .rateLimitError => .rateLimited
  | .authenticationError => .authenticationFailed

/-- `issue_check` (lines 217-274): evaluates its five conditions in source
order, returning on the first failure.  The returned list records which
checks were invoked, in order. -/
def issue_check (env : PreflightEnv) : List CheckName × Outcome :=
  if env.folderExists = false then
    ([.folder], .folderMissing)
  else if env.sdReachable = false then
    ([.folder, .service], .serviceUnreachable)
  else if latin1Encodable env.keyFieldText = false then
    ([.folder, .service, .keyEncField], .invalidKeyEncoding)
  else if latin1Encodable env.apiKey = false then
    ([.folder, .service, .keyEncField, .keyEncApi], .invalidKeyEncoding)
  else
    match env.trialResult with
    | .error e =>
      ([.folder, .service, .keyEncField, .keyEncApi, .trialCompletion], trialOutcome e)
    | .ok _ =>
      ([.folder, .service, .keyEncField, .keyEncApi, .trialCompletion], .ok)

/-- Which of the five checks issue a network request: the reachability probe
(`requests.get`) and the trial completion call. -/
def isNetworkCheck : CheckName → Bool
  | .folder => false
  | .service => true
  | .keyEncField => false
  | .keyEncApi => false
  | .trialCompletion => true

/-- The fixed order of the preflight checks as they appear in the source. -/
def checkSequence : List CheckName :=
  [.folder, .service, .keyEncField, .keyEncApi, .trialCompletion]

/-- The diagnostic each check produces when it is the one that fails. -/
def diagnosticOf : CheckName → Outcome → Prop
  | .folder, o => o = .folderMissing
  | .service, o => o = .serviceUnreachable
  | .keyEncField, o => o = .invalidKeyEncoding
  | .keyEncApi, o => o = .invalidKeyEncoding
  | .trialCompletion, o =>
      o = .apiError ∨ o = .apiConnectionError ∨ o = .rateLimited ∨ o = .authenticationFailed

/-- Claim C2: `issue_check` evaluates its conditions in the fixed order
folder-exists, service-reachable, key-encoding (the form field, then the
effective API key), trial-completion-call, and short-circuits: the checks
invoked in a run are an initial segment of that order, every check runs when
all pass, and on failure the outcome is the diagnostic of the last (failing)
check, with no later check invoked. -/
theorem claim2_check_order (env : PreflightEnv) :
    ∃ n, 0 < n ∧ n ≤ 5 ∧
      (issue_check env).1 = checkSequence.take n ∧
      ((issue_check env).2 = .ok → n = 5) ∧
      ((issue_check env).2 ≠ .ok →
        diagnosticOf (checkSequence.getD (n - 1) .folder) (issue_check env).2) := by
  by_cases hf : env.folderExists = false
  · exact ⟨1, by simp [issue_check, hf, checkSequence, diagnosticOf]⟩
  · by_cases hs : env.sdReachable = false
    · exact ⟨2, by simp [issue_check, hf, hs, checkSequence, diagnosticOf]⟩
    · by_cases hk : latin1Encodable env.keyFieldText = false
      · exact ⟨3, by simp [issue_check, hf, hs, hk, checkSequence, diagnosticOf]⟩
      · by_cases ha : latin1Encodable env.apiKey = false
        · exact ⟨4, by simp [issue_check, hf, hs, hk, ha, checkSequence, diagnosticOf]⟩
        · match htr : env.trialResult with
          | .error e =>
            refine ⟨5, by omega, by omega, ?_, ?_, ?_⟩
            · simp [issue_check, hf, hs, hk, ha, htr, checkSequence]
            · intro hok
              rfl
            · intro _
              simp only [issue_check, hf, hs, hk, ha, htr]
              cases e <;> simp [checkSequence, diagnosticOf, trialOutcome]
          | .ok s =>
            exact ⟨5, by omega, by omega,
              by simp [issue_check, hf, hs, hk, ha, htr, checkSequence],
              fun _ => rfl,
              by simp [issue_check, hf, hs, hk, ha, htr]⟩

/-- A concrete preflight state whose credential contains a character outside
Latin-1 while the folder exists and the SD service is reachable. -/
def envBadKey : PreflightEnv :=
  { folderExists := true, sdReachable := true, keyFieldText := "sk-🔑",
    apiKey := "sk-🔑", trialResult := .ok "ok" }

/-- Counterexample to C3 as stated: with a credential containing a character
outside Latin-1, the run does yield the key-encoding diagnostic, but the SD
reachability probe — a network call — has already been invoked before that
outcome is produced, so it is false that no network call of any kind is
attempted first. -/
theorem claim3_counterexample :
    latin1Encodable envBadKey.keyFieldText = false ∧
    latin1Encodable envBadKey.apiKey = false ∧
    (issue_check envBadKey).2 = .invalidKeyEncoding ∧
    (issue_check envBadKey).1 = [.folder, .service, .keyEncField] ∧
    CheckName.service ∈ (issue_check envBadKey).1 ∧
    isNetworkCheck .service = true := by
  decide

/-- Claim C3 as amended: for every credential string containing a character
outside Latin-1, once the folder and reachability checks pass, the run
yields the InvalidKeyEncoding outcome and no completion-API call is
attempted before it; the only network call preceding the outcome is the SD
reachability probe. -/
theorem claim3_amended (env : PreflightEnv)
    (hf : env.folderExists = true) (hs : env.sdReachable = true)
    (hk : latin1Encodable env.keyFieldText = false ∨ latin1Encodable env.apiKey = false) :
    (issue_check env).2 = .invalidKeyEncoding ∧
    CheckName.trialCompletion ∉ (issue_check env).1 ∧
    ∀ c ∈ (issue_check env).1, isNetworkCheck c = true → c = .service := by
  by_cases hfield : latin1Encodable env.keyFieldText = false
  · refine ⟨?_, ?_, ?_⟩ <;>
      simp [issue_check, hf, hs, hfield, isNetworkCheck]
  · have hapi : latin1Encodable env.apiKey = false := by
      rcases hk with h | h
      · exact absurd h hfield
      · exact h
    refine ⟨?_, ?_, ?_⟩ <;>
      simp [issue_check, hf, hs, hfield, hapi, isNetworkCheck]

/-- Witness for the amended C3 at the concrete state `envBadKey`. -/
theorem claim3_amended_witness :
    (issue_check envBadKey).2 = .invalidKeyEncoding :=
  (claim3_amended envBadKey rfl rfl (Or.inl (by decide))).1

/-! ## Image synthesis (`SDImageGenerator.generate_image`, lines 72-123) -/

/-- The JSON body of the `txt2img` synthesis request (lines 75-85). -/
structure Payload where
  prompt : String
  seed : Int
  batch1 : Nat
  n_iter : Nat
  steps : Nat
  cfg_scale : Nat
  width : Nat
  height : Nat
  tiling : Bool
deriving DecidableEq

/-- The fixed parameter set of every synthesis request: only the prompt
varies (lines 75-85). -/
def mkPayload (input : String) : Payload :=
  { prompt := input, seed := -1, batch1 := 1, n_iter := 1, steps := 20,
    cfg_scale := 7, width := 512, height := 512, tiling := true }

/-- The checkpoint selected by the options call (line 94). -/
def sd_model_checkpoint : String := "TextureDiffusion_10.ckpt [ded387e0f3]"

/-- One observable step of a run: a completion-API call (with the API key in
effect and the prompt), one of the three SD HTTP calls, or a file write with
its decoded bytes and its single metadata text chunk. -/
inductive Event where
  | completionCall (apiKey : String) (prompt : String)
  | sdOptions (checkpoint : String)
  | sdTxt2Img (payload : Payload)
  | sdPngInfo (image : String)
  | fileWrite (path : String) (bytes : List Nat) (metaKey : String) (metaText : String)
deriving DecidableEq

/-- The SD collaborator's behaviour: the result of the options POST (`.ok`
with a status code when a response comes back — the program never inspects
it — `.error` when the request raises), the images returned by `txt2img`
for a given prompt, and the `png-info` response for a given image payload. -/
structure SDEnv where
  optionsResp : Except Unit Nat
  txt2img : String → Except Unit (List String)
  pngInfo : String → Except Unit String

/-- The per-image half of `generate_image` (lines 106-123): for each
returned payload, request its png-info, then save the decoded image to
`<dir>/<file_name>.png` with the info text under the `parameters` key. -/
def processImages (dir file_name : String) (env : SDEnv) :
    List String → List Event × Except Unit Unit
  | [] => ([], .ok ())
  | img :: rest =>
    match env.pngInfo img with
    | .error e => ([.sdPngInfo img], .error e)
    | .ok info =>
      let r := processImages dir file_name env rest
      (Event.sdPngInfo img ::
         Event.fileWrite (dir ++ "/" ++ file_name ++ ".png") (pyDecode img) "parameters" info ::
         r.1,
       r.2)

/-- `generate_image` (lines 72-123): POST the options payload (response
unread), POST the synthesis payload, then process every returned image.
An exception in any request propagates, aborting the rest. -/
def generate_image (dir file_name input : String) (env : SDEnv) :
    List Event × Except Unit Unit :=
  let payload := mkPayload input
  match env.optionsResp with
  | .error e => ([.sdOptions sd_model_checkpoint], .error e)
  | .ok _ =>
    match env.txt2img payload.prompt with
    | .error e => ([.sdOptions sd_model_checkpoint, .sdTxt2Img payload], .error e)
    | .ok images =>
      let r := processImages dir file_name env images
      (Event.sdOptions sd_model_checkpoint :: Event.sdTxt2Img payload :: r.1, r.2)

/-- The output path for index `i`: `os.path.join(folder_path, f"Texture{i}.png")`. -/
def texPath (dir : String) (i : Nat) : String :=
  dir ++ "/" ++ ("Texture" ++ toString i) ++ ".png"

/-! ### Trace projections -/

def completionEvents (tr : List Event) : List (String × String) :=
  tr.filterMap fun e =>
    match e with
    | .completionCall k p => some (k, p)
    | _ => none

def txt2imgPayloads (tr : List Event) : List Payload :=
  tr.filterMap fun e =>
    match e with
    | .sdTxt2Img p => some p
    | _ => none

def writeRecords (tr : List Event) : List (String × List Nat × String × String) :=
  tr.filterMap fun e =>
    match e with
    | .fileWrite path bytes k text => some (path, bytes, k, text)
    | _ => none

def writePaths (tr : List Event) : List String :=
  tr.filterMap fun e =>
    match e with
    | .fileWrite path _ _ _ => some path
    | _ => none

/-- A written PNG: its bytes and its single text chunk. -/
structure PngFile where
  bytes : List Nat
  metaKey : String
  metaText : String
deriving DecidableEq

/-- Replaying the write events of a trace over a filesystem: a later write
to the same path overwrites the earlier file without warning. -/
def applyWrites (fs : String → Option PngFile) : List Event → (String → Option PngFile)
  | [] => fs
  | .fileWrite path bytes k text :: rest =>
      applyWrites (fun q => if q = path then some ⟨bytes, k, text⟩ else fs q) rest
  | .completionCall _ _ :: rest => applyWrites fs rest
  | .sdOptions _ :: rest => applyWrites fs rest
  | .sdTxt2Img _ :: rest => applyWrites fs rest
  | .sdPngInfo _ :: rest => applyWrites fs rest

/-- Claim C4: when the synthesis for index `i` succeeds with a single
returned image (batch size 1), exactly one write is issued, at
`<dir>/Texture<i>.png`, and for any prior filesystem content the file at
that path afterwards carries, under the `parameters` key, exactly the
`info` text of the png-info response — any existing file is overwritten. -/
theorem claim4_write_metadata (dir input : String) (i : Nat) (env : SDEnv)
    (st : Nat) (img info : String)
    (hopt : env.optionsResp = .ok st)
    (himg : env.txt2img input = .ok [img])
    (hinfo : env.pngInfo img = .ok info) :
    writeRecords (generate_image dir ("Texture" ++ toString i) input env).1
      = [(texPath dir i, pyDecode img, "parameters", info)] ∧
    (∀ fs : String → Option PngFile,
      applyWrites fs (generate_image dir ("Texture" ++ toString i) input env).1 (texPath dir i)
        = some ⟨pyDecode img, "parameters", info⟩) ∧
    (generate_image dir ("Texture" ++ toString i) input env).2 = .ok () := by
  have hpr : (mkPayload input).prompt = input := rfl
  refine ⟨?_, ?_, ?_⟩ <;>
    simp [generate_image, hopt, hpr, himg, processImages, hinfo, writeRecords,
      applyWrites, texPath]

/-- Witness for C4 at a concrete environment. -/
def sdEnvOk : SDEnv :=
  { optionsResp := .ok 200,
    txt2img := fun _ => .ok ["iVBO"],
    pngInfo := fun _ => .ok "Steps: 20, Size: 512x512" }

theorem claim4_witness :
    writeRecords (generate_image "/out" ("Texture" ++ toString 0) "PBR, Brick" sdEnvOk).1
      = [(texPath "/out" 0, pyDecode "iVBO", "parameters", "Steps: 20, Size: 512x512")] :=
  (claim4_write_metadata "/out" "PBR, Brick" 0 sdEnvOk 200 "iVBO"
    "Steps: 20, Size: 512x512" rfl rfl rfl).1

/-- A concrete SD state whose options call raises a transport exception. -/
def sdEnvOptExc : SDEnv :=
  { optionsResp := .error (),
    txt2img := fun _ => .ok ["iVBO"],
    pngInfo := fun _ => .ok "info" }

/-- Counterexample to C6 as stated: when the options POST raises a transport
exception, the error propagates and the synthesis call is never issued — the
trace stops at the options call — so it is false that any failure of the
configuration call is ignored. -/
theorem claim6_counterexample :
    sdEnvOptExc.optionsResp = .error () ∧
    (generate_image "/out" "Texture0" "PBR, Brick" sdEnvOptExc).1
      = [.sdOptions sd_model_checkpoint] ∧
    txt2imgPayloads (generate_image "/out" "Texture0" "PBR, Brick" sdEnvOptExc).1 = [] ∧
    (generate_image "/out" "Texture0" "PBR, Brick" sdEnvOptExc).2 = .error () := by
  refine ⟨rfl, ?_, ?_, ?_⟩ <;> rfl

/-- Claim C6 as amended: the options call's response is never inspected —
whenever it returns a response, whatever its status code, the synthesis call
is issued next; a transport exception raised by the call itself, however,
propagates and prevents the synthesis call. -/
theorem claim6_amended (dir file_name input : String) (env : SDEnv) (st : Nat)
    (hopt : env.optionsResp = .ok st) :
    Event.sdTxt2Img (mkPayload input) ∈ (generate_image dir file_name input env).1 := by
  unfold generate_image
  rw [hopt]
  match h : env.txt2img (mkPayload input).prompt with
  | .error e => simp [h]
  | .ok images => simp [h]

/-- Witness for the amended C6: a status-500 options response still lets the
synthesis call go out. -/
def sdEnv500 : SDEnv :=
  { optionsResp := .ok 500,
    txt2img := fun _ => .ok ["iVBO"],
    pngInfo := fun _ => .ok "info" }

theorem claim6_amended_witness :
    Event.sdTxt2Img (mkPayload "PBR, Brick")
      ∈ (generate_image "/out" "Texture0" "PBR, Brick" sdEnv500).1 :=
  claim6_amended "/out" "Texture0" "PBR, Brick" sdEnv500 500 rfl

/-! ## Name generation (`GPTGenerator.generate_texture_names`, lines 167-189) -/

/-- Python's `repr` of a string without quotes or escapes in it, as it
appears inside the f-string interpolation of a list. -/
def pyStrRepr (s : String) : String := "'" ++ s ++ "'"

/-- Python's rendering of a list of strings inside an f-string
(`{texture_names[:i]}` on line 181). -/
def pyListRepr (xs : List String) : String :=
  "[" ++ String.intercalate ", " (xs.map pyStrRepr) ++ "]"

/-- The prompt built on iteration `i` (lines 178-181): the base request
naming a material for the theme and, when `i > 0`, the exclusion clause
listing the names produced so far (`texture_names[:i]`). -/
def gptPrompt (user_input : String) (names : List String) (i : Nat) : String :=
  let base := "only reply with a one word answer. Name a single material used in " ++ user_input
  if 0 < i then base ++ " other than these " ++ pyListRepr (names.take i) else base

/-- The collaborators a run talks to: the completion API (by prompt) and the
SD service. -/
structure Env where
  completion : String → Except Unit String
  sd : SDEnv

/-- The loop body of `generate_texture_names` (lines 176-186), indexed by
remaining iterations `fuel` and current index `i`, carrying the names
produced so far: ask the completion API, append the returned name, then
synthesize and save the image for that name before the next iteration. -/
def genLoop (user_input dir apiKey : String) (env : Env) :
    Nat → Nat → List String → List Event × Except Unit (List String)
  | 0, _, names => ([], .ok names)
  | fuel + 1, i, names =>
    let prompt := gptPrompt user_input names i
    match env.completion prompt with
    | .error e => ([.completionCall apiKey prompt], .error e)
    | .ok name =>
      let gi := generate_image dir ("Texture" ++ toString i) ("PBR, " ++ name) env.sd
      match gi.2 with
      | .error e => (Event.completionCall apiKey prompt :: gi.1, .error e)
      | .ok _ =>
        let rest := genLoop user_input dir apiKey env fuel (i + 1) (names ++ [name])
        (Event.completionCall apiKey prompt :: (gi.1 ++ rest.1), rest.2)

/-- `generate_texture_names` (lines 167-189): five iterations starting from
the empty name list. -/
def generate_texture_names (user_input dir apiKey : String) (env : Env) :
    List Event × Except Unit (List String) :=
  genLoop user_input dir apiKey env 5 0 []

/-! ### Trace lemmas for the synthesis step -/

theorem completionEvents_processImages (dir f : String) (env : SDEnv) (imgs : List String) :
    completionEvents (processImages dir f env imgs).1 = [] := by
  induction imgs with
  | nil => rfl
  | cons img rest ih =>
    cases h : env.pngInfo img with
    | error e => simp [processImages, h, completionEvents]
    | ok info =>
      simp only [processImages, h]
      simpa [completionEvents] using ih

theorem txt2imgPayloads_processImages (dir f : String) (env : SDEnv) (imgs : List String) :
    txt2imgPayloads (processImages dir f env imgs).1 = [] := by
  induction imgs with
  | nil => rfl
  | cons img rest ih =>
    cases h : env.pngInfo img with
    | error e => simp [processImages, h, txt2imgPayloads]
    | ok info =>
      simp only [processImages, h]
      simpa [txt2imgPayloads] using ih

theorem completionEvents_generate_image (dir f input : String) (env : SDEnv) :
    completionEvents (generate_image dir f input env).1 = [] := by
  cases hopt : env.optionsResp with
  | error e => simp [generate_image, hopt, completionEvents]
  | ok st =>
    cases himg : env.txt2img (mkPayload input).prompt with
    | error e => simp [generate_image, hopt, himg, completionEvents]
    | ok imgs =>
      simp only [generate_image, hopt, himg]
      simpa [completionEvents] using completionEvents_processImages dir f env imgs

theorem txt2imgPayloads_generate_image_ok (dir f input : String) (env : SDEnv)
    (hok : (generate_image dir f input env).2 = .ok ()) :
    txt2imgPayloads (generate_image dir f input env).1 = [mkPayload input] := by
  cases hopt : env.optionsResp with
  | error e => simp [generate_image, hopt] at hok
  | ok st =>
    cases himg : env.txt2img (mkPayload input).prompt with
    | error e => simp [generate_image, hopt, himg] at hok
    | ok imgs =>
      simp only [generate_image, hopt, himg]
      simpa [txt2imgPayloads] using txt2imgPayloads_processImages dir f env imgs

/-! ### The master lemma for successful runs of the loop -/

theorem genLoop_ok (user dir apiKey : String) (env : Env) :
    ∀ (fuel i : Nat) (names0 names : List String),
      names0.length = i →
      (genLoop user dir apiKey env fuel i names0).2 = .ok names →
      names.length = i + fuel ∧
      names.take i = names0 ∧
      completionEvents (genLoop user dir apiKey env fuel i names0).1
        = (List.range' i fuel).map (fun j => (apiKey, gptPrompt user (names.take j) j)) ∧
      txt2imgPayloads (genLoop user dir apiKey env fuel i names0).1
        = (names.drop i).map (fun n => mkPayload ("PBR, " ++ n)) := by
  intro fuel
  induction fuel with
  | zero =>
    intro i names0 names hlen hok
    simp only [genLoop] at hok
    simp only [Except.ok.injEq] at hok
    subst hok
    refine ⟨by omega, ?_, ?_, ?_⟩
    · rw [← hlen]
      exact List.take_length names0
    · simp [genLoop, completionEvents, List.range']
    · rw [← hlen, List.drop_length]
      simp [genLoop, txt2imgPayloads]
  | succ fuel ih =>
    intro i names0 names hlen hok
    cases hcomp : env.completion (gptPrompt user names0 i) with
    | error e0 => simp [genLoop, hcomp] at hok
    | ok name =>
      cases hgi : (generate_image dir ("Texture" ++ toString i) ("PBR, " ++ name) env.sd).2 with
      | error e1 => simp [genLoop, hcomp, hgi] at hok
      | ok u =>
        cases u
        have hok' : (genLoop user dir apiKey env fuel (i + 1) (names0 ++ [name])).2
            = .ok names := by
          simpa [genLoop, hcomp, hgi] using hok
        obtain ⟨ih1, ih2, ih3, ih4⟩ :=
          ih (i + 1) (names0 ++ [name]) names (by simp [hlen]) hok'
        have hsplit : names = names0 ++ ([name] ++ names.drop (i + 1)) := by
          conv_lhs => rw [← List.take_append_drop (i + 1) names]
          rw [ih2, List.append_assoc]
        have htake : names.take i = names0 := by
          conv_lhs => rw [hsplit]
          rw [← hlen, List.take_left]
        have hdrop : names.drop i = name :: names.drop (i + 1) := by
          conv_lhs => rw [hsplit]
          rw [← hlen, List.drop_left]
          rfl
        refine ⟨by omega, htake, ?_, ?_⟩
        · simp only [genLoop, hcomp, hgi, completionEvents, List.filterMap_cons,
            List.filterMap_append]
          rw [List.range'_succ]
          simp only [List.map_cons]
          have hgiemp := completionEvents_generate_image dir ("Texture" ++ toString i)
            ("PBR, " ++ name) env.sd
          simp only [completionEvents] at hgiemp
          rw [hgiemp]
          simp only [List.nil_append]
          have hrest := ih3
          simp only [completionEvents] at hrest
          rw [hrest, htake]
        · simp only [genLoop, hcomp, hgi, txt2imgPayloads, List.filterMap_cons,
            List.filterMap_append]
          rw [hdrop]
          simp only [List.map_cons]
          have hgipl := txt2imgPayloads_generate_image_ok dir ("Texture" ++ toString i)
            ("PBR, " ++ name) env.sd hgi
          simp only [txt2imgPayloads] at hgipl
          rw [hgipl]
          have hrest := ih4
          simp only [txt2imgPayloads] at hrest
          rw [hrest]
          rfl

/-- Claim C1: for every run in which the name-generation loop completes,
exactly 5 material names are produced in call order; the completion prompts
sent are, in order, the prompt for each index built from the names already
produced; the first prompt carries no exclusion clause, each later prompt
ends with the literal list of the names produced so far, and those
exclude-lists have lengths 0, 1, 2, 3, 4 across the five calls. -/
theorem claim1_names_and_prompts (theme dir apiKey : String) (env : Env)
    (names : List String)
    (hok : (generate_texture_names theme dir apiKey env).2 = .ok names) :
    names.length = 5 ∧
    completionEvents (generate_texture_names theme dir apiKey env).1
      = (List.range 5).map (fun i => (apiKey, gptPrompt theme (names.take i) i)) ∧
    gptPrompt theme (names.take 0) 0
      = "only reply with a one word answer. Name a single material used in " ++ theme ∧
    (∀ i, 0 < i →
      gptPrompt theme (names.take i) i
        = ("only reply with a one word answer. Name a single material used in " ++ theme)
          ++ " other than these " ++ pyListRepr (names.take i)) ∧
    (∀ i ≤ 5, (names.take i).length = i) := by
  obtain ⟨h1, _, h3, _⟩ := genLoop_ok theme dir apiKey env 5 0 [] names rfl hok
  refine ⟨by omega, ?_, ?_, ?_, ?_⟩
  · rw [List.range_eq_range']
    exact h3
  · simp [gptPrompt]
  · intro i hi
    simp only [gptPrompt, if_pos hi]
    rw [List.take_take, min_self]
  · intro i hi
    rw [List.length_take]
    omega

/-- A fully successful concrete environment: every completion call returns
the name `Brick` and the SD service behaves. -/
def envAllOk : Env :=
  { completion := fun _ => .ok "Brick", sd := sdEnvOk }

/-- Witness for C1 at the concrete environment `envAllOk`. -/
theorem claim1_witness :
    (["Brick", "Brick", "Brick", "Brick", "Brick"] : List String).length = 5 :=
  (claim1_names_and_prompts "zombie apocalypse" "/out" "sk-valid" envAllOk
    ["Brick", "Brick", "Brick", "Brick", "Brick"] rfl).1

/-- Claim C5: in every completed run, the synthesis requests issued are, in
call order, one per material name, each with exactly the fixed parameter set
`seed = -1`, `batch_size = 1`, `n_iter = 1`, `steps = 20`, `cfg_scale = 7`,
`width = 512`, `height = 512`, `tiling = true`, and prompt text exactly
`"PBR, "` followed by the material name. -/
theorem claim5_fixed_payload (theme dir apiKey : String) (env : Env)
    (names : List String)
    (hok : (generate_texture_names theme dir apiKey env).2 = .ok names) :
    txt2imgPayloads (generate_texture_names theme dir apiKey env).1
      = names.map (fun n =>
          { prompt := "PBR, " ++ n, seed := -1, batch1 := 1, n_iter := 1, steps := 20,
            cfg_scale := 7, width := 512, height := 512, tiling := true }) := by
  obtain ⟨_, _, _, h4⟩ := genLoop_ok theme dir apiKey env 5 0 [] names rfl hok
  simpa [mkPayload] using h4

/-- Witness for C5 at the concrete environment `envAllOk`. -/
theorem claim5_witness :
    txt2imgPayloads (generate_texture_names "zombie apocalypse" "/out" "sk-valid" envAllOk).1
      = List.replicate 5 (mkPayload "PBR, Brick") := by
  rw [claim5_fixed_payload "zombie apocalypse" "/out" "sk-valid" envAllOk
    ["Brick", "Brick", "Brick", "Brick", "Brick"] rfl]
  rfl

/-! ## Interleaving of completion calls and file writes (for C8) -/

/-- A trace letter: `c` for a completion call, `w` for a file write. -/
inductive CW where
  | c
  | w
deriving DecidableEq

/-- The trace projected to completion calls and file writes only. -/
def cwProj (tr : List Event) : List CW :=
  tr.filterMap fun e =>
    match e with
    | .completionCall _ _ => some CW.c
    | .fileWrite _ _ _ _ => some CW.w
    | _ => none

/-- `n` completed iterations: a completion call followed by its write, `n`
times. -/
def cwPairs : Nat → List CW
  | 0 => []
  | n + 1 => CW.c :: CW.w :: cwPairs n

theorem cwProj_processImages_single (dir f : String) (env : SDEnv) (img info : String)
    (hinfo : env.pngInfo img = .ok info) :
    cwProj (processImages dir f env [img]).1 = [CW.w] ∧
    writePaths (processImages dir f env [img]).1 = [dir ++ "/" ++ f ++ ".png"] := by
  constructor <;> simp [processImages, hinfo, cwProj, writePaths]

theorem generate_image_ok_shape (dir f input : String) (env : SDEnv)
    (hs : ∀ imgs, env.txt2img input = .ok imgs → imgs.length = 1)
    (hok : (generate_image dir f input env).2 = .ok ()) :
    cwProj (generate_image dir f input env).1 = [CW.w] ∧
    writePaths (generate_image dir f input env).1 = [dir ++ "/" ++ f ++ ".png"] := by
  cases hopt : env.optionsResp with
  | error e => simp [generate_image, hopt] at hok
  | ok st =>
    cases himg : env.txt2img (mkPayload input).prompt with
    | error e => simp [generate_image, hopt, himg] at hok
    | ok imgs =>
      obtain ⟨img, rfl⟩ := List.length_eq_one.mp (hs imgs himg)
      cases hinfo : env.pngInfo img with
      | error e => simp [generate_image, hopt, himg, processImages, hinfo] at hok
      | ok info =>
        have h := cwProj_processImages_single dir f env img info hinfo
        constructor
        · simp only [generate_image, hopt, himg, cwProj, List.filterMap_cons]
          simpa [cwProj] using h.1
        · simp only [generate_image, hopt, himg, writePaths, List.filterMap_cons]
          simpa [writePaths] using h.2

theorem generate_image_error_shape (dir f input : String) (env : SDEnv) (e : Unit)
    (hs : ∀ imgs, env.txt2img input = .ok imgs → imgs.length = 1)
    (herr : (generate_image dir f input env).2 = .error e) :
    cwProj (generate_image dir f input env).1 = [] ∧
    writePaths (generate_image dir f input env).1 = [] := by
  cases hopt : env.optionsResp with
  | error e0 => constructor <;> simp [generate_image, hopt, cwProj, writePaths]
  | ok st =>
    cases himg : env.txt2img (mkPayload input).prompt with
    | error e0 => constructor <;> simp [generate_image, hopt, himg, cwProj, writePaths]
    | ok imgs =>
      obtain ⟨img, rfl⟩ := List.length_eq_one.mp (hs imgs himg)
      cases hinfo : env.pngInfo img with
      | error e0 =>
        constructor <;>
          simp [generate_image, hopt, himg, processImages, hinfo, cwProj, writePaths]
      | ok info => simp [generate_image, hopt, himg, processImages, hinfo] at herr

/-- The master interleaving lemma: under single-image synthesis responses,
a completed loop's projected trace is `n` call/write pairs with the write
paths `Texture<i>` in index order, and an aborted loop's projected trace is
`j` completed pairs followed by one completion call, with exactly the first
`j` files written. -/
theorem genLoop_cw (user dir apiKey : String) (env : Env)
    (hs : ∀ p imgs, env.sd.txt2img p = .ok imgs → imgs.length = 1) :
    ∀ (fuel i : Nat) (names0 : List String),
      (∀ names, (genLoop user dir apiKey env fuel i names0).2 = .ok names →
        cwProj (genLoop user dir apiKey env fuel i names0).1 = cwPairs fuel ∧
        writePaths (genLoop user dir apiKey env fuel i names0).1
          = (List.range' i fuel).map (texPath dir)) ∧
      (∀ e, (genLoop user dir apiKey env fuel i names0).2 = .error e →
        ∃ j, j < fuel ∧
          cwProj (genLoop user dir apiKey env fuel i names0).1 = cwPairs j ++ [CW.c] ∧
          writePaths (genLoop user dir apiKey env fuel i names0).1
            = (List.range' i j).map (texPath dir)) := by
  intro fuel
  induction fuel with
  | zero =>
    intro i names0
    constructor
    · intro names _
      constructor <;> simp [genLoop, cwProj, cwPairs, writePaths, List.range']
    · intro e he
      simp [genLoop] at he
  | succ fuel ih =>
    intro i names0
    cases hcomp : env.completion (gptPrompt user names0 i) with
    | error e0 =>
      constructor
      · intro names hok
        simp [genLoop, hcomp] at hok
      · intro e he
        refine ⟨0, by omega, ?_, ?_⟩ <;>
          simp [genLoop, hcomp, cwProj, cwPairs, writePaths, List.range']
    | ok name =>
      cases hgi : (generate_image dir ("Texture" ++ toString i) ("PBR, " ++ name) env.sd).2 with
      | error e1 =>
        have hshape := generate_image_error_shape dir ("Texture" ++ toString i)
          ("PBR, " ++ name) env.sd e1 (fun imgs h => hs _ imgs h) hgi
        constructor
        · intro names hok
          simp [genLoop, hcomp, hgi] at hok
        · intro e he
          refine ⟨0, by omega, ?_, ?_⟩
          · simp only [genLoop, hcomp, hgi, cwProj, List.filterMap_cons]
            have h1 := hshape.1
            simp only [cwProj] at h1
            simp [h1, cwPairs]
          · simp only [genLoop, hcomp, hgi, writePaths, List.filterMap_cons]
            have h2 := hshape.2
            simp only [writePaths] at h2
            simp [h2, List.range']
      | ok u =>
        cases u
        have hshape := generate_image_ok_shape dir ("Texture" ++ toString i)
          ("PBR, " ++ name) env.sd (fun imgs h => hs _ imgs h) hgi
        have h1 := hshape.1
        have h2 := hshape.2
        simp only [cwProj] at h1
        simp only [writePaths] at h2
        obtain ⟨ihok, iherr⟩ := ih (i + 1) (names0 ++ [name])
        constructor
        · intro names hok
          have hok' : (genLoop user dir apiKey env fuel (i + 1) (names0 ++ [name])).2
              = .ok names := by
            simpa [genLoop, hcomp, hgi] using hok
          obtain ⟨hcw, hwp⟩ := ihok names hok'
          simp only [cwProj] at hcw
          simp only [writePaths] at hwp
          constructor
          · simp only [genLoop, hcomp, hgi, cwProj, List.filterMap_cons, List.filterMap_append]
            rw [h1, hcw]
            rfl
          · simp only [genLoop, hcomp, hgi, writePaths, List.filterMap_cons,
              List.filterMap_append]
            rw [h2, hwp, List.range'_succ]
            simp [texPath]
        · intro e he
          have he' : (genLoop user dir apiKey env fuel (i + 1) (names0 ++ [name])).2
              = .error e := by
            simpa [genLoop, hcomp, hgi] using he
          obtain ⟨j, hj, hcw, hwp⟩ := iherr e he'
          simp only [cwProj] at hcw
          simp only [writePaths] at hwp
          refine ⟨j + 1, by omega, ?_, ?_⟩
          · simp only [genLoop, hcomp, hgi, cwProj, List.filterMap_cons, List.filterMap_append]
            rw [h1, hcw]
            rfl
          · simp only [genLoop, hcomp, hgi, writePaths, List.filterMap_cons,
              List.filterMap_append]
            rw [h2, hwp, List.range'_succ]
            simp [texPath]

/-- Claim C8: under single-image synthesis responses, the image for name `i`
is written before the completion prompt for name `i + 1` is issued — a
completed run's trace, projected to completion calls and writes, is five
strictly alternating call/write pairs with write paths `Texture0.png` ..
`Texture4.png` in order; and a run that aborts while processing index `i`
(0-based, after its completion call was issued) has written exactly
`Texture0.png` .. `Texture<i-1>.png`. -/
theorem claim8_write_before_next_prompt (theme dir apiKey : String) (env : Env)
    (hs : ∀ p imgs, env.sd.txt2img p = .ok imgs → imgs.length = 1) :
    (∀ names, (generate_texture_names theme dir apiKey env).2 = .ok names →
      cwProj (generate_texture_names theme dir apiKey env).1 = cwPairs 5 ∧
      writePaths (generate_texture_names theme dir apiKey env).1
        = (List.range 5).map (texPath dir)) ∧
    (∀ e, (generate_texture_names theme dir apiKey env).2 = .error e →
      ∃ i, i < 5 ∧
        cwProj (generate_texture_names theme dir apiKey env).1 = cwPairs i ++ [CW.c] ∧
        writePaths (generate_texture_names theme dir apiKey env).1
          = (List.range i).map (texPath dir)) := by
  obtain ⟨hok, herr⟩ := genLoop_cw theme dir apiKey env hs 5 0 []
  constructor
  · intro names h
    have := hok names h
    rwa [List.range_eq_range']
  · intro e h
    obtain ⟨j, hj, hcw, hwp⟩ := herr e h
    exact ⟨j, hj, hcw, by rwa [List.range_eq_range']⟩

theorem envAllOk_single : ∀ p imgs, envAllOk.sd.txt2img p = .ok imgs → imgs.length = 1 := by
  intro p imgs h
  have h' : (Except.ok ["iVBO"] : Except Unit (List String)) = Except.ok imgs := h
  injection h' with h2
  subst h2
  rfl

/-- Witness for C8 at the concrete environment `envAllOk`. -/
theorem claim8_witness :
    cwProj (generate_texture_names "zombie apocalypse" "/out" "sk-valid" envAllOk).1
      = cwPairs 5 ∧
    writePaths (generate_texture_names "zombie apocalypse" "/out" "sk-valid" envAllOk).1
      = (List.range 5).map (texPath "/out") :=
  (claim8_write_before_next_prompt "zombie apocalypse" "/out" "sk-valid" envAllOk
    envAllOk_single).1 ["Brick", "Brick", "Brick", "Brick", "Brick"] rfl

/-! ## The driver (`generate_textures`, lines 197-215, and module init, lines 37-46) -/

/-- The key mode set at module load (lines 37-46): `OS_KEY` with the
environment-provided credential when `OPENAI_API_KEY` is present, else
`USER_KEY`. -/
inductive KeyMode where
  | osKey (envKey : String)
  | userKey
deriving DecidableEq

/-- The value of `openai.api_key` when the run starts (lines 43 and
202-203): the environment credential in `OS_KEY` mode, the form field text
in `USER_KEY` mode. -/
def effectiveApiKey : KeyMode → String → String
  | .osKey k, _ => k
  | .userKey, fieldText => fieldText

/-- `generate_textures` (lines 197-215): set `openai.api_key`, run
`issue_check` (the trial completion call uses `openai.api_key`), and on
success run the name-generation loop, whose completion calls also use
`openai.api_key`. -/
def generate_textures_run (mode : KeyMode) (fieldText theme dir : String)
    (folderOk sdOk : Bool) (trial : Except TrialError String) (env : Env) :
    List Event × Except Unit (List String) :=
  let apiKey := effectiveApiKey mode fieldText
  let chk := issue_check { folderExists := folderOk, sdReachable := sdOk,
                           keyFieldText := fieldText, apiKey := apiKey,
                           trialResult := trial }
  let trialEvents :=
    if CheckName.trialCompletion ∈ chk.1 then [Event.completionCall apiKey "test"] else []
  match chk.2 with
  | .ok =>
    let g := generate_texture_names theme dir apiKey env
    (trialEvents ++ g.1, g.2)
  | _ => (trialEvents, .error ())

theorem completionCall_not_mem_generate_image (dir f input : String) (env : SDEnv)
    (k p : String) : Event.completionCall k p ∉ (generate_image dir f input env).1 := by
  intro hmem
  have hpair : (k, p) ∈ completionEvents (generate_image dir f input env).1 :=
    List.mem_filterMap.mpr ⟨_, hmem, rfl⟩
  rw [completionEvents_generate_image] at hpair
  exact absurd hpair (List.not_mem_nil _)

theorem completionCall_key_genLoop (user dir apiKey : String) (env : Env) :
    ∀ (fuel i : Nat) (names0 : List String) (k p : String),
      Event.completionCall k p ∈ (genLoop user dir apiKey env fuel i names0).1 →
      k = apiKey := by
  intro fuel
  induction fuel with
  | zero =>
    intro i names0 k p hmem
    simp [genLoop] at hmem
  | succ fuel ih =>
    intro i names0 k p hmem
    cases hcomp : env.completion (gptPrompt user names0 i) with
    | error e0 =>
      have h : k = apiKey ∧ p = gptPrompt user names0 i := by
        simpa [genLoop, hcomp] using hmem
      exact h.1
    | ok name =>
      cases hgi : (generate_image dir ("Texture" ++ toString i) ("PBR, " ++ name) env.sd).2 with
      | error e1 =>
        have h : (k = apiKey ∧ p = gptPrompt user names0 i) ∨
            Event.completionCall k p
              ∈ (generate_image dir ("Texture" ++ toString i) ("PBR, " ++ name) env.sd).1 := by
          simpa [genLoop, hcomp, hgi] using hmem
        rcases h with ⟨h1, _⟩ | h
        · exact h1
        · exact absurd h (completionCall_not_mem_generate_image _ _ _ _ k p)
      | ok u =>
        cases u
        have h : (k = apiKey ∧ p = gptPrompt user names0 i) ∨
            Event.completionCall k p
              ∈ (generate_image dir ("Texture" ++ toString i) ("PBR, " ++ name) env.sd).1 ∨
            Event.completionCall k p
              ∈ (genLoop user dir apiKey env fuel (i + 1) (names0 ++ [name])).1 := by
          simpa [genLoop, hcomp, hgi] using hmem
        rcases h with ⟨h1, _⟩ | h | h
        · exact h1
        · exact absurd h (completionCall_not_mem_generate_image _ _ _ _ k p)
        · exact ih (i + 1) (names0 ++ [name]) k p h

/-- Claim C7: whenever the environment-provided credential is present
(`OS_KEY` mode), every completion call of the run — the preflight trial call
and all five name-generation calls — is issued with that credential as the
API key; the form field is never the key in effect. -/
theorem claim7_env_key_used (envKey fieldText theme dir : String)
    (folderOk sdOk : Bool) (trial : Except TrialError String) (env : Env)
    (k p : String)
    (hmem : Event.completionCall k p
      ∈ (generate_textures_run (.osKey envKey) fieldText theme dir
          folderOk sdOk trial env).1) :
    k = envKey := by
  simp only [generate_textures_run, effectiveApiKey] at hmem
  set P : PreflightEnv :=
    { folderExists := folderOk, sdReachable := sdOk, keyFieldText := fieldText,
      apiKey := envKey, trialResult := trial } with hP
  have htrial : Event.completionCall k p ∈
      (if CheckName.trialCompletion ∈ (issue_check P).1 then
        [Event.completionCall envKey "test"] else []) → k = envKey := by
    intro hx
    by_cases htr : CheckName.trialCompletion ∈ (issue_check P).1
    · rw [if_pos htr] at hx
      have h : k = envKey ∧ p = "test" := by simpa using hx
      exact h.1
    · rw [if_neg htr] at hx
      exact absurd hx (List.not_mem_nil _)
  cases hout : (issue_check P).2 with
  | ok =>
    rw [hout] at hmem
    simp only [List.mem_append] at hmem
    rcases hmem with hx | hx
    · exact htrial hx
    · exact completionCall_key_genLoop theme dir envKey env 5 0 [] k p hx
  | folderMissing =>
    rw [hout] at hmem
    exact htrial hmem
  | serviceUnreachable =>
    rw [hout] at hmem
    exact htrial hmem
  | invalidKeyEncoding =>
    rw [hout] at hmem
    exact htrial hmem
  | apiError =>
    rw [hout] at hmem
    exact htrial hmem
  | apiConnectionError =>
    rw [hout] at hmem
    exact htrial hmem
  | rateLimited =>
    rw [hout] at hmem
    exact htrial hmem
  | authenticationFailed =>
    rw [hout] at hmem
    exact htrial hmem

/-- Witness for C7: in a run with an environment credential whose preflight
trial call occurs, the trial call's key is that credential. -/
theorem claim7_witness : ("sk-env" : String) = "sk-env" :=
  claim7_env_key_used "sk-env" "sk-field" "zombie apocalypse" "/out" true true
    (.ok "r") envAllOk "sk-env" "test" (by decide)

/-- The preflight state `generate_textures` builds when the environment
credential is in effect: `openai.api_key` is the environment credential,
the form field is still Latin-1-checked first. -/
def osKeyPreflight (envKey fieldText : String) (trial : Except TrialError String) :
    PreflightEnv :=
  { folderExists := true, sdReachable := true, keyFieldText := fieldText,
    apiKey := effectiveApiKey (.osKey envKey) fieldText, trialResult := trial }

/-- Claim C9: the preflight Latin-1-checks `openai.api_key` as a separate
condition after the form field, so with an environment credential in effect
a non-Latin-1 character in either the form field or the environment
credential aborts the run with the key-encoding diagnostic before the trial
completion call — and before any completion call at all; when the form field
itself is Latin-1, it is the separate fourth check that fires. -/
theorem claim9_api_key_checked (envKey fieldText theme dir : String)
    (trial : Except TrialError String) (env : Env)
    (hk : latin1Encodable fieldText = false ∨ latin1Encodable envKey = false) :
    (issue_check (osKeyPreflight envKey fieldText trial)).2 = .invalidKeyEncoding ∧
    CheckName.trialCompletion ∉ (issue_check (osKeyPreflight envKey fieldText trial)).1 ∧
    completionEvents (generate_textures_run (.osKey envKey) fieldText theme dir
      true true trial env).1 = [] ∧
    (latin1Encodable fieldText = true →
      (issue_check (osKeyPreflight envKey fieldText trial)).1
        = [.folder, .service, .keyEncField, .keyEncApi]) := by
  have hkey : effectiveApiKey (.osKey envKey) fieldText = envKey := rfl
  by_cases hfield : latin1Encodable fieldText = false
  · refine ⟨?_, ?_, ?_, ?_⟩
    · simp [issue_check, osKeyPreflight, hfield]
    · simp [issue_check, osKeyPreflight, hfield]
    · simp [generate_textures_run, issue_check, hfield, completionEvents]
    · intro htrue
      rw [htrue] at hfield
      exact absurd hfield (by decide)
  · have hapi : latin1Encodable envKey = false := by
      rcases hk with h | h
      · exact absurd h hfield
      · exact h
    refine ⟨?_, ?_, ?_, ?_⟩
    · simp [issue_check, osKeyPreflight, hfield, hkey, hapi]
    · simp [issue_check, osKeyPreflight, hfield, hkey, hapi]
    · simp [generate_textures_run, issue_check, hfield, hapi, completionEvents,
        effectiveApiKey]
    · intro _
      simp [issue_check, osKeyPreflight, hfield, hkey, hapi]

/-- Witness for C9: a Latin-1 form field with a non-Latin-1 environment
credential still aborts with the key-encoding diagnostic. -/
theorem claim9_witness :
    (issue_check (osKeyPreflight "sk-🔑" "sk-ok" (.ok "r"))).2 = .invalidKeyEncoding :=
  (claim9_api_key_checked "sk-🔑" "sk-ok" "zombie apocalypse" "/out" (.ok "r") envAllOk
    (Or.inr (by decide))).1

end SmartTileMaker
